import Mathlib

/-!
Verification development for the transcription-helpers repository.

The repository consists of two command-line tools:
* `transcript_downloader.py` — fetches a YouTube caption track and falls
  back to downloading the audio and transcribing it with a local Whisper
  model or a remote Whishper server;
* `podcast_transcriber.py` — scrapes an Acast or Apple Podcasts episode
  page for a direct audio URL, downloads the audio and transcribes it
  with a local Whisper model.

This file shallowly embeds the decision logic of both tools: the
regular-expression scans and the JSON parsing are embedded at the level
of character lists, network collaborators (HTTP fetch, the caption API,
the Whisper model, the Whishper server, file saving) are passed in as
explicit outcome values, and the two `main` orchestrations are embedded
as pure functions from arguments and collaborator outcomes to a run
result (exit code, attempt log, terminal error, audio-file state).
-/

/-! ## Character and string utilities -/

/-- Character class `[a-zA-Z0-9_-]` used by the video-id regexes of
`transcript_downloader.py` (lines 39 and 43-48). -/
def idChar (c : Char) : Bool :=
  c.isAlpha || c.isDigit || c = '_' || c = '-'

/-- Lower-case hexadecimal class `[a-f0-9]` of the Acast URL regex
(`podcast_transcriber.py` line 123). -/
def acastHexChar (c : Char) : Bool :=
  c.isDigit || ('a' ≤ c && c ≤ 'f')

/-- If `pat` is a leading run of `cs`, return the remainder of `cs`. -/
def dropLit : List Char → List Char → Option (List Char)
  | [], cs => some cs
  | _ :: _, [] => none
  | p :: ps, c :: cs => if c = p then dropLit ps cs else none

/-- Whether `pat` is a leading run of `cs`. -/
def startsWithChars (pat cs : List Char) : Bool :=
  (dropLit pat cs).isSome

/-- Python's substring test `pat in hay`. -/
def strContains (hay pat : List Char) : Bool :=
  match hay with
  | [] => pat.isEmpty
  | _ :: rest => startsWithChars pat hay || strContains rest pat

/-- Python's `str.lower` restricted to ASCII (all strings the tools
compare against are ASCII). -/
def lowerChars (cs : List Char) : List Char :=
  cs.map Char.toLower

/-! ## JSON values, modelling the result of Python's `json.loads` -/

/-- A parsed JSON value.  Numbers keep their raw lexeme: the tools never
compute with numbers, they only test truthiness. -/
inductive Json where
  | str (s : String)
  | obj (entries : List (String × Json))
  | arr (items : List Json)
  | num (raw : String)
  | bool (b : Bool)
  | null

/-- Lookup in a parsed JSON object; on duplicate keys the last entry
wins, as in a Python dict built by `json.loads`. -/
def jgetLast : List (String × Json) → String → Option Json
  | [], _ => none
  | (k, v) :: rest, key =>
    match jgetLast rest key with
    | some r => some r
    | none => if k = key then some v else none

/-- Python `data.get(key)`: `some v` iff the key is present (the value
may itself be `null`, which Python renders as `None`). -/
def Json.get : Json → String → Option Json
  | .obj es, k => jgetLast es k
  | _, _ => none

/-- Python `data.get(key, dflt)`. -/
def Json.getD (d : Json) (k : String) (dflt : Json) : Json :=
  match d.get k with
  | some v => v
  | none => dflt

/-- Python `key in data` for a dict. -/
def jsonHasKey (d : Json) (k : String) : Bool :=
  match d with
  | .obj es => es.any (fun kv => kv.1 = k)
  | _ => false

/-- Python `isinstance(x, dict)`. -/
def isObjJson : Json → Bool
  | .obj _ => true
  | _ => false

/-- Truthiness of a raw JSON number lexeme: zero values (`0`, `0.0`,
`-0.0e5`, …) are falsy; lexemes with no digit before the exponent
(`NaN`, `Infinity`) are truthy.  Float underflow is not modelled. -/
def jsonNumTruthy (raw : String) : Bool :=
  let mantissa := (raw.toList.takeWhile (fun c => c ≠ 'e' && c ≠ 'E')).filter Char.isDigit
  mantissa.isEmpty || mantissa.any (fun c => c ≠ '0')

/-- Python truthiness of a value produced by `json.loads`. -/
def truthy : Json → Bool
  | .null => false
  | .bool b => b
  | .num raw => jsonNumTruthy raw
  | .str s => s ≠ ""
  | .arr xs => !xs.isEmpty
  | .obj es => !es.isEmpty

/-- Truthiness of `data.get(...)`: Python `None` (absent key) is falsy. -/
def truthyOpt : Option Json → Bool
  | none => false
  | some j => truthy j

/-- Python `x or y` for two `get` results: the first if truthy,
otherwise the second (whatever it is). -/
def pyOr (x y : Option Json) : Option Json :=
  if truthyOpt x then x else y

/-! ## A JSON parser, modelling `json.loads`

`json.loads` raises `JSONDecodeError` on malformed input; the model
returns `none` there.  JSON whitespace is space, tab, newline, return.
Lone `\u` surrogate escapes and float underflow are not modelled (no
claim depends on them). -/

/-- JSON whitespace accepted by Python's scanner. -/
def jsonWs (c : Char) : Bool :=
  c = ' ' || c = '\t' || c = '\n' || c = '\r'

/-- Drop leading JSON whitespace. -/
def skipWs (cs : List Char) : List Char :=
  cs.dropWhile jsonWs

/-- Value of one hexadecimal digit (0-9, a-f, A-F by code point). -/
def hexDigitVal (c : Char) : Option Nat :=
  let n := c.toNat
  if 48 ≤ n && n ≤ 57 then some (n - 48)
  else if 97 ≤ n && n ≤ 102 then some (n - 87)
  else if 65 ≤ n && n ≤ 70 then some (n - 55)
  else none

/-- Parse the body of a JSON string after the opening quote, returning
the decoded characters and the input after the closing quote.  Strict
mode: raw control characters below 0x20 are rejected. -/
def parseStringBody : List Char → Option (List Char × List Char)
  | [] => none
  | c :: cs =>
    if c = '"' then some ([], cs)
    else if c = '\\' then
      match cs with
      | [] => none
      | e :: cs2 =>
        if e = '"' then (parseStringBody cs2).map (fun pr => ('"' :: pr.1, pr.2))
        else if e = '\\' then (parseStringBody cs2).map (fun pr => ('\\' :: pr.1, pr.2))
        else if e = '/' then (parseStringBody cs2).map (fun pr => ('/' :: pr.1, pr.2))
        else if e = 'b' then (parseStringBody cs2).map (fun pr => ('\x08' :: pr.1, pr.2))
        else if e = 'f' then (parseStringBody cs2).map (fun pr => ('\x0c' :: pr.1, pr.2))
        else if e = 'n' then (parseStringBody cs2).map (fun pr => ('\n' :: pr.1, pr.2))
        else if e = 'r' then (parseStringBody cs2).map (fun pr => ('\r' :: pr.1, pr.2))
        else if e = 't' then (parseStringBody cs2).map (fun pr => ('\t' :: pr.1, pr.2))
        else if e = 'u' then
          match cs2 with
          | h1 :: h2 :: h3 :: h4 :: cs3 =>
            match hexDigitVal h1, hexDigitVal h2, hexDigitVal h3, hexDigitVal h4 with
            | some a, some b, some c3, some d3 =>
              (parseStringBody cs3).map
                (fun pr => (Char.ofNat (((a * 16 + b) * 16 + c3) * 16 + d3) :: pr.1, pr.2))
            | _, _, _, _ => none
          | _ => none
        else none
    else if c.toNat < 32 then none
    else (parseStringBody cs).map (fun pr => (c :: pr.1, pr.2))

/-- Lex a JSON number `-?(0|[1-9][0-9]*)(\.[0-9]+)?([eE][+-]?[0-9]+)?`,
returning the raw lexeme and the remaining input. -/
def parseNumberLex (cs : List Char) : Option (List Char × List Char) :=
  let (sign, cs1) :=
    match cs with
    | '-' :: r => ((['-'] : List Char), r)
    | _ => (([] : List Char), cs)
  match cs1 with
  | [] => none
  | c :: _ =>
    if !c.isDigit then none
    else
      let intPart := if c = '0' then ['0'] else cs1.takeWhile Char.isDigit
      let rest1 := cs1.drop intPart.length
      let fracState : Option (List Char × List Char) :=
        match rest1 with
        | '.' :: r =>
          let ds := r.takeWhile Char.isDigit
          if ds.isEmpty then none else some ('.' :: ds, r.drop ds.length)
        | _ => some ([], rest1)
      match fracState with
      | none => none
      | some (frac, rest2) =>
        let expState : Option (List Char × List Char) :=
          match rest2 with
          | e :: r =>
            if e = 'e' || e = 'E' then
              let (es, r2) :=
                match r with
                | s :: r3 => if s = '+' || s = '-' then (([e, s] : List Char), r3) else (([e] : List Char), r)
                | [] => (([e] : List Char), r)
              let ds := r2.takeWhile Char.isDigit
              if ds.isEmpty then none else some (es ++ ds, r2.drop ds.length)
            else some ([], rest2)
          | [] => some ([], rest2)
        match expState with
        | none => none
        | some (ex, rest3) => some (sign ++ intPart ++ frac ++ ex, rest3)

mutual

/-- Parse one JSON value (fuelled; the fuel is an upper bound on nesting
depth, one unit per character suffices). -/
def parseValue : Nat → List Char → Option (Json × List Char)
  | 0, _ => none
  | n + 1, cs0 =>
    let cs := skipWs cs0
    match dropLit "true".toList cs with
    | some r => some (Json.bool true, r)
    | none =>
    match dropLit "false".toList cs with
    | some r => some (Json.bool false, r)
    | none =>
    match dropLit "null".toList cs with
    | some r => some (Json.null, r)
    | none =>
    match dropLit "NaN".toList cs with
    | some r => some (Json.num "NaN", r)
    | none =>
    match dropLit "Infinity".toList cs with
    | some r => some (Json.num "Infinity", r)
    | none =>
    match dropLit "-Infinity".toList cs with
    | some r => some (Json.num "-Infinity", r)
    | none =>
    match cs with
    | [] => none
    | c :: rest =>
      if c = '"' then
        (parseStringBody rest).map (fun pr => (Json.str (String.mk pr.1), pr.2))
      else if c = '[' then
        let r1 := skipWs rest
        match r1 with
        | ']' :: r2 => some (Json.arr [], r2)
        | _ =>
          match parseElems n r1 with
          | some (xs, r2) => some (Json.arr xs, r2)
          | none => none
      else if c = '\x7b' then
        let r1 := skipWs rest
        match r1 with
        | '\x7d' :: r2 => some (Json.obj [], r2)
        | _ =>
          match parseMembers n r1 with
          | some (es, r2) => some (Json.obj es, r2)
          | none => none
      else
        (parseNumberLex cs).map (fun pr => (Json.num (String.mk pr.1), pr.2))

/-- Parse one-or-more comma-separated array elements up to `]`. -/
def parseElems : Nat → List Char → Option (List Json × List Char)
  | 0, _ => none
  | n + 1, cs =>
    match parseValue n cs with
    | none => none
    | some (v, r1) =>
      match skipWs r1 with
      | ',' :: r2 =>
        match parseElems n r2 with
        | some (xs, r3) => some (v :: xs, r3)
        | none => none
      | ']' :: r2 => some ([v], r2)
      | _ => none

/-- Parse one-or-more comma-separated object members up to the closing
brace. -/
def parseMembers : Nat → List Char → Option (List (String × Json) × List Char)
  | 0, _ => none
  | n + 1, cs =>
    match skipWs cs with
    | '"' :: r1 =>
      match parseStringBody r1 with
      | none => none
      | some (key, r2) =>
        match skipWs r2 with
        | ':' :: r3 =>
          match parseValue n r3 with
          | none => none
          | some (v, r4) =>
            match skipWs r4 with
            | ',' :: r5 =>
              match parseMembers n r5 with
              | some (es, r6) => some ((String.mk key, v) :: es, r6)
              | none => none
            | '\x7d' :: r5 => some ([(String.mk key, v)], r5)
            | _ => none
        | _ => none
    | _ => none

end

/-- `json.loads` on a character list: parse one value and require only
whitespace after it; `none` models `JSONDecodeError`. -/
def parseJsonChars (cs : List Char) : Option Json :=
  match parseValue (cs.length + 1) cs with
  | some (j, rest) => if (skipWs rest).isEmpty then some j else none
  | none => none

/-- `json.loads` on a string. -/
def parseJson (s : String) : Option Json :=
  parseJsonChars s.toList

/-! ## Regex scans over the raw page text

These embed the three regular expressions of `podcast_transcriber.py`:
the JSON-LD script-block scan (lines 44-45 and 143-144), the audio-URL
scan `https?://[^\s<>"]+\.(?:mp3|m4a)` (lines 85-86 and 180-181), and
the Acast identifier pattern (line 123).  `re.findall` scans left to
right for non-overlapping matches; greedy and non-greedy repetition are
realised directly. -/

/-- Opening delimiter of a JSON-LD block. -/
def jsonLdOpenTag : List Char :=
  "<script type=\"application/ld+json\">".toList

/-- Closing delimiter of a JSON-LD block. -/
def jsonLdCloseTag : List Char :=
  "</script>".toList

/-- Capture everything up to the first occurrence of the closing script
tag (the non-greedy `(.*?)` with `re.DOTALL`), returning the capture and
the input after the tag. -/
def captureUntilClose : List Char → Option (List Char × List Char)
  | [] => none
  | c :: cs =>
    match dropLit jsonLdCloseTag (c :: cs) with
    | some rest => some ([], rest)
    | none => (captureUntilClose cs).map (fun pr => (c :: pr.1, pr.2))

/-- Fuelled worker for the JSON-LD block scan. -/
def jsonLdFindAllFuel : Nat → List Char → List (List Char)
  | 0, _ => []
  | _ + 1, [] => []
  | n + 1, c :: cs =>
    match dropLit jsonLdOpenTag (c :: cs) with
    | some afterOpen =>
      match captureUntilClose afterOpen with
      | some (cap, rest) => cap :: jsonLdFindAllFuel n rest
      | none => []
    | none => jsonLdFindAllFuel n cs

/-- `re.findall(r'<script type="application/ld\+json">(.*?)</script>',
text, re.DOTALL)`: the capture groups of all non-overlapping matches in
document order. -/
def jsonLdFindAll (cs : List Char) : List (List Char) :=
  jsonLdFindAllFuel cs.length cs

/-- Character class `[^\s<>"]` of the audio-URL regex.  Python `\s` on
ASCII input is space, tab, newline, return, form feed, vertical tab. -/
def urlChar (c : Char) : Bool :=
  !(c = ' ' || c = '\t' || c = '\n' || c = '\r' || c = '\x0b' || c = '\x0c'
    || c = '<' || c = '>' || c = '"')

/-- Match `https?://` at the head of the input, returning the consumed
scheme characters and the remainder. -/
def matchHttpAt (cs : List Char) : Option (List Char × List Char) :=
  match dropLit "https://".toList cs with
  | some rest => some ("https://".toList, rest)
  | none =>
    match dropLit "http://".toList cs with
    | some rest => some ("http://".toList, rest)
    | none => none

/-- On the reversed URL-character run, find the longest prefix of the
run that ends in `.mp3` or `.m4a` with at least one character before
the extension (greedy backtracking of `[^\s<>"]+\.(?:mp3|m4a)`): the
result is that prefix, reversed. -/
def extSearchRev : List Char → Option (List Char)
  | [] => none
  | c :: cs =>
    match c :: cs with
    | '3' :: 'p' :: 'm' :: '.' :: r =>
      if !r.isEmpty then some (c :: cs) else extSearchRev cs
    | 'a' :: '4' :: 'm' :: '.' :: r =>
      if !r.isEmpty then some (c :: cs) else extSearchRev cs
    | _ => extSearchRev cs

/-- Fuelled worker for the audio-URL scan. -/
def findAudioUrlsFuel : Nat → List Char → List (List Char)
  | 0, _ => []
  | _ + 1, [] => []
  | n + 1, c :: cs =>
    match matchHttpAt (c :: cs) with
    | some (scheme, rest) =>
      let run := rest.takeWhile urlChar
      match extSearchRev run.reverse with
      | some revBody =>
        let body := revBody.reverse
        (scheme ++ body) :: findAudioUrlsFuel n (rest.drop body.length)
      | none => findAudioUrlsFuel n cs
    | none => findAudioUrlsFuel n cs

/-- `re.findall(r'https?://[^\s<>"]+\.(?:mp3|m4a)', text)`: all
non-overlapping matches in document order. -/
def findAudioUrls (cs : List Char) : List (List Char) :=
  findAudioUrlsFuel cs.length cs

/-- Take a maximal nonempty run of lower-case hexadecimal characters. -/
def takeHexRun (cs : List Char) : Option (List Char × List Char) :=
  let run := cs.takeWhile acastHexChar
  if run.isEmpty then none else some (run, cs.drop run.length)

/-- Try the Acast identifier pattern
`shows\.acast\.com/([a-f0-9]+)/([a-f0-9]+)` at the head of the input. -/
def acastIdsAt (cs : List Char) : Option (List Char × List Char) :=
  match dropLit "shows.acast.com/".toList cs with
  | none => none
  | some rest =>
    match takeHexRun rest with
    | none => none
    | some (showId, rest1) =>
      match rest1 with
      | '/' :: rest2 =>
        match takeHexRun rest2 with
        | none => none
        | some (episodeId, _) => some (showId, episodeId)
      | _ => none

/-- `re.search` for the Acast identifier pattern: first position at
which it matches (`podcast_transcriber.py` lines 123-124). -/
def acastUrlIds : List Char → Option (List Char × List Char)
  | [] => none
  | c :: cs =>
    match acastIdsAt (c :: cs) with
    | some r => some r
    | none => acastUrlIds cs

/-! ## The JSON-LD episode loops of the two extractors -/

/-- Python `isinstance(data, dict) and data.get('@type') ==
'PodcastEpisode'` (lines 56 and 155). -/
def isEpisodeDict (d : Json) : Bool :=
  isObjJson d &&
    (match d.get "@type" with
     | some (.str s) => s = "PodcastEpisode"
     | _ => false)

/-- Episode-title update `data.get('name', episode_title)` (lines 58 and
157). -/
def titleFrom (d : Json) (ep : Json) : Json :=
  d.getD "name" ep

/-- Show-title update from `partOfSeries` (lines 71-74 and 166-169). -/
def showFrom (d : Json) (sh : Json) : Json :=
  if jsonHasKey d "partOfSeries" then
    match d.get "partOfSeries" with
    | some s => if isObjJson s then s.getD "name" sh else sh
    | none => sh
  else sh

/-- Audio-URL update of the Apple loop body (lines 60-68): the top-level
`url` field is assigned first when the key is present; only when the
result is falsy is `associatedMedia` consulted, taking
`media.get('contentUrl') or media.get('url')` when the media value is a
dict. -/
def appleAudioFrom (d : Json) (a : Option Json) : Option Json :=
  let a1 := if jsonHasKey d "url" then d.get "url" else a
  if !truthyOpt a1 && jsonHasKey d "associatedMedia" then
    match d.get "associatedMedia" with
    | some m => if isObjJson m then pyOr (m.get "contentUrl") (m.get "url") else a1
    | none => a1
  else a1

/-- Audio-URL update of the Acast loop body (lines 159-163): only
`associatedMedia.contentUrl` is ever read; when `associatedMedia` is
present and a dict, the audio URL is overwritten by
`media.get('contentUrl')` whatever that is. -/
def acastAudioFrom (d : Json) (a : Option Json) : Option Json :=
  if jsonHasKey d "associatedMedia" then
    match d.get "associatedMedia" with
    | some m => if isObjJson m then m.get "contentUrl" else a
    | none => a
  else a

/-- The Apple Podcasts loop over JSON-LD blocks (lines 51-80): each
block is parsed (`json.JSONDecodeError` skips it), episode blocks update
titles and the audio URL, and the loop breaks on the first truthy audio
URL. -/
def appleLoop : List (List Char) → Option Json → Json → Json → Option Json × Json × Json
  | [], a, ep, sh => (a, ep, sh)
  | b :: rest, a, ep, sh =>
    match parseJsonChars b with
    | none => appleLoop rest a ep sh
    | some d =>
      if isEpisodeDict d then
        let ep2 := titleFrom d ep
        let a2 := appleAudioFrom d a
        let sh2 := showFrom d sh
        if truthyOpt a2 then (a2, ep2, sh2) else appleLoop rest a2 ep2 sh2
      else appleLoop rest a ep sh

/-- The Acast loop over JSON-LD blocks (lines 150-175), same structure
as `appleLoop` with the Acast audio-URL update. -/
def acastLoop : List (List Char) → Option Json → Json → Json → Option Json × Json × Json
  | [], a, ep, sh => (a, ep, sh)
  | b :: rest, a, ep, sh =>
    match parseJsonChars b with
    | none => acastLoop rest a ep sh
    | some d =>
      if isEpisodeDict d then
        let ep2 := titleFrom d ep
        let a2 := acastAudioFrom d a
        let sh2 := showFrom d sh
        if truthyOpt a2 then (a2, ep2, sh2) else acastLoop rest a2 ep2 sh2
      else acastLoop rest a ep sh

/-! ## Pattern-scan CDN preference and the two extractors -/

/-- Tokens of the Apple pattern-scan preference (line 91). -/
def appleHostTokens : List (List Char) :=
  ["ausha".toList, "acast".toList, "libsyn".toList, "buzzsprout".toList,
   "simplecast".toList, "megaphone".toList]

/-- Tokens of the Acast pattern-scan preference (line 186). -/
def acastHostTokens : List (List Char) :=
  ["acast".toList, "media".toList]

/-- Pattern-scan selection (lines 88-96 and 183-191): the first match
whose lower-cased text contains one of the tokens, otherwise the first
match in document order, `none` when there are no matches. -/
def selectFromMatches (tokens : List (List Char)) (ms : List (List Char)) :
    Option (List Char) :=
  match ms.find? (fun u => tokens.any (fun t => strContains (lowerChars u) t)) with
  | some u => some u
  | none => ms.head?

/-- Outcome of `requests.get` on the episode page: `failure` covers both
a connection-level error and a non-2xx status (`raise_for_status`), both
of which raise `requests.RequestException`. -/
inductive FetchResult where
  | success (text : String)
  | failure

/-- `extract_apple_podcasts_audio_url` (lines 24-106) as a function of
the page-fetch outcome.  Returns the tuple `(audio_url, episode_title,
show_title)` or the message of the raised exception. -/
def extract_apple_podcasts_audio_url (_episode_url : String) (fetch : FetchResult) :
    Except String (Json × Json × Json) :=
  match fetch with
  | .failure => .error "Failed to fetch Apple Podcasts page"
  | .success text =>
    let blocks := jsonLdFindAll text.toList
    let (a0, ep, sh) :=
      appleLoop blocks none (Json.str "Unknown Episode") (Json.str "Unknown Show")
    let a1 :=
      if !truthyOpt a0 then
        match selectFromMatches appleHostTokens (findAudioUrls text.toList) with
        | some u => some (Json.str (String.mk u))
        | none => a0
      else a0
    match a1 with
    | some v =>
      if truthy v then .ok (v, ep, sh)
      else .error "Could not extract audio URL from Apple Podcasts page"
    | none => .error "Could not extract audio URL from Apple Podcasts page"

/-- `extract_acast_audio_url` (lines 109-206) as a function of the
page-fetch outcome.  The direct audio URL is constructed from the page
URL before the fetch (lines 122-133), but the whole fetch-and-scan is
inside one `try` whose `except requests.RequestException` re-raises, so
a fetch failure raises regardless of the constructed URL; the
constructed URL is consulted only after both page strategies miss
(lines 193-196). -/
def extract_acast_audio_url (episode_url : String) (fetch : FetchResult) :
    Except String (Json × Json × Json) :=
  let direct : Option (List Char) :=
    match acastUrlIds episode_url.toList with
    | some (showId, episodeId) =>
      some ("https://play.acast.com/s/".toList ++ showId ++ '/' :: episodeId
            ++ ".mp3".toList)
    | none => none
  match fetch with
  | .failure => .error "Failed to fetch Acast page"
  | .success text =>
    let blocks := jsonLdFindAll text.toList
    let (a0, ep, sh) :=
      acastLoop blocks none (Json.str "Unknown Episode") (Json.str "Unknown Show")
    let a1 :=
      if !truthyOpt a0 then
        match selectFromMatches acastHostTokens (findAudioUrls text.toList) with
        | some u => some (Json.str (String.mk u))
        | none => a0
      else a0
    let a2 :=
      if !truthyOpt a1 then
        match direct with
        | some d => some (Json.str (String.mk d))
        | none => a1
      else a1
    match a2 with
    | some v =>
      if truthy v then .ok (v, ep, sh)
      else .error "Could not extract audio URL from Acast page"
    | none => .error "Could not extract audio URL from Acast page"

/-- Host of an absolute URL: the text between `://` and the next `/`,
`?`, `#` or `:`.  This definition follows the SPEC's words ("a URL whose
host is on the ... allow-list") and exists only to state claim C8's
host-based reading for comparison with the code's substring test. -/
def urlHost (u : List Char) : List Char :=
  match u with
  | [] => []
  | c :: cs =>
    match dropLit "://".toList (c :: cs) with
    | some rest => rest.takeWhile (fun x => x ≠ '/' && x ≠ '?' && x ≠ '#' && x ≠ ':')
    | none => urlHost cs

/-- Spec-side reading of "host on the allow-list": one of the tokens is a
substring of the URL's host. -/
def hostOnAllowList (tokens : List (List Char)) (u : List Char) : Bool :=
  tokens.any (fun t => strContains (lowerChars (urlHost u)) t)

/-! ## Video-id extraction (`transcript_downloader.py` lines 28-55) -/

/-- Take exactly `n` characters of class `[a-zA-Z0-9_-]`. -/
def takeIdChars : Nat → List Char → Option (List Char × List Char)
  | 0, cs => some ([], cs)
  | _ + 1, [] => none
  | n + 1, c :: cs =>
    if idChar c then (takeIdChars n cs).map (fun pr => (c :: pr.1, pr.2)) else none

/-- Python's `$` without `re.MULTILINE`: end of string, or just before a
final newline. -/
def pyDollarEnd (rest : List Char) : Bool :=
  rest.isEmpty || rest = ['\n']

/-- `re.match(r'^[a-zA-Z0-9_-]{11}$', url)` (line 39). -/
def matchFullId (cs : List Char) : Bool :=
  match takeIdChars 11 cs with
  | some (_, rest) => pyDollarEnd rest
  | none => false

/-- Pattern `(?:v=|\/)([0-9A-Za-z_-]{11}).*` tried at one position; the
trailing `.*` always matches and binds nothing. -/
def tryVSlash : List Char → Option (List Char)
  | 'v' :: '=' :: rest => (takeIdChars 11 rest).map Prod.fst
  | '/' :: rest => (takeIdChars 11 rest).map Prod.fst
  | _ => none

/-- Pattern `(?:embed\/)([0-9A-Za-z_-]{11})` tried at one position. -/
def tryEmbed (cs : List Char) : Option (List Char) :=
  match dropLit "embed/".toList cs with
  | some rest => (takeIdChars 11 rest).map Prod.fst
  | none => none

/-- Pattern `(?:watch\?v=)([0-9A-Za-z_-]{11})` tried at one position. -/
def tryWatch (cs : List Char) : Option (List Char) :=
  match dropLit "watch?v=".toList cs with
  | some rest => (takeIdChars 11 rest).map Prod.fst
  | none => none

/-- `re.search`: try the position matcher at every position, left to
right (the final empty position included). -/
def scanSearch (tryAt : List Char → Option (List Char)) : List Char → Option (List Char)
  | [] => tryAt []
  | c :: cs =>
    match tryAt (c :: cs) with
    | some g => some g
    | none => scanSearch tryAt cs

/-- Pattern `^([0-9A-Za-z_-]{11})$`: anchored, so only position 0 is
tried. -/
def pat4Anchored (cs : List Char) : Option (List Char) :=
  match takeIdChars 11 cs with
  | some (g, rest) => if pyDollarEnd rest then some g else none
  | none => none

/-- `extract_video_id` (lines 28-55): the bare-id check first, then the
four URL patterns in order; `ValueError` becomes `.error`. -/
def extract_video_id (url : String) : Except String String :=
  let cs := url.toList
  if matchFullId cs then .ok url
  else
    match scanSearch tryVSlash cs with
    | some g => .ok (String.mk g)
    | none =>
    match scanSearch tryEmbed cs with
    | some g => .ok (String.mk g)
    | none =>
    match scanSearch tryWatch cs with
    | some g => .ok (String.mk g)
    | none =>
    match pat4Anchored cs with
    | some g => .ok (String.mk g)
    | none => .error ("Could not extract video ID from: " ++ url)

/-! ## Caption retrieval (`transcript_downloader.py` lines 58-91) -/

/-- One caption cue. -/
structure Cue where
  start : Int
  duration : Int
  text : String
deriving DecidableEq

/-- A caption track as returned by the caption API. -/
abbrev TranscriptData := List Cue

/-- Collaborator model of `YouTubeTranscriptApi.get_transcript` for one
video: `byLang l` is the track returned for `languages=[l]` (`none`
models any raised exception, swallowed by the bare `except` at line 78),
and `defaultTrack` is the result of a call with no language argument. -/
structure CaptionApi where
  byLang : String → Option TranscriptData
  defaultTrack : Option TranscriptData

/-- The per-language loop of `get_transcript` (lines 74-79): first
language that yields a track wins. -/
def tryLanguages (api : CaptionApi) : List String → Option (TranscriptData × String)
  | [] => none
  | l :: rest =>
    match api.byLang l with
    | some d => some (d, l)
    | none => tryLanguages api rest

/-- `get_transcript` (lines 58-91): default the language list to
`['en']`, try each preferred language in order, then one call without a
language constraint (language recorded as `'unknown'`), else raise. -/
def get_transcript (api : CaptionApi) (languages : Option (List String)) :
    Except String (TranscriptData × String) :=
  let langs :=
    match languages with
    | none => ["en"]
    | some ls => ls
  match tryLanguages api langs with
  | some (d, l) => .ok (d, l)
  | none =>
    match api.defaultTrack with
    | some d => .ok (d, "unknown")
    | none => .error "Error fetching transcript: No transcripts available for this video"

/-! ## Transcription engines -/

/-- Collaborator model of `whisper.load_model(model_size).transcribe(
path, language=...)`: model size, audio path and the `language` keyword
argument map to the produced text or a raised exception's message. -/
def WhisperOracle : Type :=
  String → String → Option String → Except String String

/-- The `language` keyword passed to the local model by
`transcript_downloader.py` line 256: `'en'` is replaced by `None`
(auto-detect), every other code — `'auto'` included — is passed
through verbatim. -/
def localWhisperLangArg (language : String) : Option String :=
  if language ≠ "en" then some language else none

/-- The `language` keyword passed to the local model by
`podcast_transcriber.py` line 304: `'auto'` is replaced by `None`
(auto-detect), every other code is passed through verbatim. -/
def podcastWhisperLangArg (language : String) : Option String :=
  if language ≠ "auto" then some language else none

/-- `transcribe_with_local_whisper` (`transcript_downloader.py` lines
229-263): raises when the optional whisper dependency is missing (lines
241-242), otherwise wraps any model failure. -/
def transcribe_with_local_whisper (whisperAvailable : Bool) (w : WhisperOracle)
    (audio_file : String) (language : String) (model_size : String) :
    Except String String :=
  if !whisperAvailable then
    .error "OpenAI Whisper is not installed. Install with: uv add openai-whisper"
  else
    match w model_size audio_file (localWhisperLangArg language) with
    | .ok t => .ok t
    | .error e => .error ("Local Whisper transcription failed: " ++ e)

/-- `transcribe_audio` (`podcast_transcriber.py` lines 279-311), same
shape with the `'auto'` language mapping. -/
def transcribe_audio (whisperAvailable : Bool) (w : WhisperOracle)
    (audio_file : String) (language : String) (model_size : String) :
    Except String String :=
  if !whisperAvailable then
    .error "OpenAI Whisper is not installed. Install with: uv add openai-whisper"
  else
    match w model_size audio_file (podcastWhisperLangArg language) with
    | .ok t => .ok t
    | .error e => .error ("Transcription failed: " ++ e)

/-! ## The YouTube-tool orchestration (`transcript_downloader.py` main,
lines 354-466; the `--list-transcripts` listing path is not modelled) -/

/-- The three acquisition strategies of the spec's attempt log. -/
inductive Strat where
  | nativeCaption
  | localEngine
  | remoteEngine
deriving DecidableEq

/-- One attempt-log record: which strategy ran and whether it
succeeded. -/
structure Attempt where
  strat : Strat
  success : Bool
deriving DecidableEq

/-- Python `str.strip()` whitespace. -/
def pySpace (c : Char) : Bool :=
  c = ' ' || c = '\t' || c = '\n' || c = '\r' || c = '\x0b' || c = '\x0c'

/-- Python `str.strip()`. -/
def pyStrip (s : String) : String :=
  String.mk (((s.toList.dropWhile pySpace).reverse.dropWhile pySpace).reverse)

/-- Line 385: `[lang.strip() for lang in args.languages.split(',')]`. -/
def parsedLanguages (raw : String) : List String :=
  (raw.splitOn ",").map pyStrip

/-- Line 413: `languages[0] if languages else 'en'`. -/
def primaryLanguage (raw : String) : String :=
  match parsedLanguages raw with
  | [] => "en"
  | l :: _ => l

/-- Command-line arguments of `transcript_downloader.py` that the
orchestration consumes (the output path and format choice are absorbed
by the collaborator oracles). -/
structure DLArgs where
  url : String
  audio_only : Bool
  use_local_whisper : Bool
  keep_audio : Bool
  languages : String
  whisper_model : String

/-- Collaborator outcomes for one run of the YouTube tool.  `download`
is the outcome of `download_audio`, `whishper` of
`transcribe_with_whishper`, `save` of `save_transcript`; `fmt` is the
chosen `format_transcript` formatter. -/
structure DLEnv where
  whisperAvailable : Bool
  captions : CaptionApi
  fmt : TranscriptData → String
  download : Except String String
  whisper : WhisperOracle
  whishper : Except String String
  save : Except String Unit

/-- Observable result of one run: the process exit code, the terminal
error surfaced on stderr, the strategy attempt log, and whether the
downloaded audio file is still on disk afterwards. -/
structure RunResult where
  exitCode : Nat
  finalError : Option String
  log : List Attempt
  audioOnDisk : Bool
deriving DecidableEq

/-- Lines 389-404: fetch the native caption unless `--audio-only`;
failures are swallowed and only advance the run. -/
def captionPhase (a : DLArgs) (env : DLEnv) : Option String × List Attempt :=
  if a.audio_only then (none, [])
  else
    match get_transcript env.captions (some (parsedLanguages a.languages)) with
    | .ok (d, _lang) => (some (env.fmt d), [⟨.nativeCaption, true⟩])
    | .error _ => (none, [⟨.nativeCaption, false⟩])

/-- Lines 407-436 (the body of the inner `try`): download once, then
local Whisper first when requested or available — re-raising its error
when `--use-local-whisper` pinned it — else fall back to the Whishper
server; without local Whisper the server is the sole attempt.  Returns
the transcript or the propagated error, the engine attempt log, and
whether an audio file was downloaded. -/
def enginePhase (a : DLArgs) (env : DLEnv) :
    Except String String × List Attempt × Bool :=
  match env.download with
  | .error e => (.error e, [], false)
  | .ok audio_file =>
    if a.use_local_whisper || env.whisperAvailable then
      match transcribe_with_local_whisper env.whisperAvailable env.whisper
          audio_file (primaryLanguage a.languages) a.whisper_model with
      | .ok t => (.ok t, [⟨.localEngine, true⟩], true)
      | .error we =>
        if a.use_local_whisper then
          (.error we, [⟨.localEngine, false⟩], true)
        else
          match env.whishper with
          | .ok t => (.ok t, [⟨.localEngine, false⟩, ⟨.remoteEngine, true⟩], true)
          | .error e2 =>
            (.error e2, [⟨.localEngine, false⟩, ⟨.remoteEngine, false⟩], true)
    else
      match env.whishper with
      | .ok t => (.ok t, [⟨.remoteEngine, true⟩], true)
      | .error e2 => (.error e2, [⟨.remoteEngine, false⟩], true)

/-- `main` of `transcript_downloader.py` (lines 354-466): id extraction,
caption phase, engine phase with its `except` handler at lines 438-443
(which deletes the audio file unless `--keep-audio`), transcript saving,
and the success-path cleanup at lines 457-459.  A `save_transcript`
failure reaches the outer handler (lines 464-466), which performs no
cleanup. -/
def mainDownloader (a : DLArgs) (env : DLEnv) : RunResult :=
  match extract_video_id a.url with
  | .error e => ⟨1, some e, [], false⟩
  | .ok _vid =>
    match captionPhase a env with
    | (some _text, log0) =>
      match env.save with
      | .error e => ⟨1, some e, log0, false⟩
      | .ok _ => ⟨0, none, log0, false⟩
    | (none, log0) =>
      match enginePhase a env with
      | (.error e, log1, downloaded) =>
        ⟨1, some e, log0 ++ log1, downloaded && a.keep_audio⟩
      | (.ok _text, log1, downloaded) =>
        match env.save with
        | .error e => ⟨1, some e, log0 ++ log1, downloaded⟩
        | .ok _ => ⟨0, none, log0 ++ log1, downloaded && a.keep_audio⟩

/-! ## The podcast-tool orchestration (`podcast_transcriber.py` main,
lines 331-444) -/

/-- ASCII reading of Python's `\w` (the titles the tools sanitise are
treated as ASCII). -/
def wordChar (c : Char) : Bool :=
  c.isAlphanum || c = '_'

/-- Collapse every run of `[-\s]+` to a single dash. -/
def collapseDashAux : Bool → List Char → List Char
  | _, [] => []
  | inRun, c :: cs =>
    if pySpace c || c = '-' then
      if inRun then collapseDashAux true cs else '-' :: collapseDashAux true cs
    else c :: collapseDashAux false cs

/-- Lines 407-408: drop characters outside `[\w\s-]`, collapse dash and
whitespace runs to a dash, truncate to 50 characters. -/
def sanitizeTitle (t : String) : String :=
  let kept := t.toList.filter (fun c => wordChar c || pySpace c || c = '-')
  String.mk ((collapseDashAux false kept).take 50)

/-- Outcome of `download_audio` (`podcast_transcriber.py` lines
209-276): success with a path, a failure raised before the output file
is opened (`requests.get` / `raise_for_status`, lines 254-255), or a
failure while streaming chunks, which leaves a partial file on disk
(lines 259-270). -/
inductive PodDownload where
  | ok (path : String)
  | errNoFile
  | errPartial

/-- Command-line arguments of `podcast_transcriber.py`. -/
structure PodArgs where
  url : String
  keep_audio : Bool
  language : String
  model : String

/-- Collaborator outcomes for one run of the podcast tool. -/
structure PodEnv where
  fetch : FetchResult
  download : PodDownload
  whisperAvailable : Bool
  whisper : WhisperOracle
  save : Except String Unit

/-- Observable result of a podcast-tool run. -/
structure PodResult where
  exitCode : Nat
  audioOnDisk : Bool
deriving DecidableEq

/-- `main` of `podcast_transcriber.py` (lines 331-444): platform
dispatch by substring of the URL (lines 393-401), extraction, filename
sanitisation (a non-string episode title makes `re.sub` raise before any
download), download, transcription and save.  The only audio-file
cleanup is on the success path (lines 434-438); every failure after the
download reaches the top-level handler (lines 442-444), which exits
without deleting the file. -/
def mainPodcast (a : PodArgs) (env : PodEnv) : PodResult :=
  let extracted : Option (Except String (Json × Json × Json)) :=
    if strContains a.url.toList "acast.com".toList then
      some (extract_acast_audio_url a.url env.fetch)
    else if strContains a.url.toList "podcasts.apple.com".toList then
      some (extract_apple_podcasts_audio_url a.url env.fetch)
    else none
  match extracted with
  | none => ⟨1, false⟩
  | some (.error _) => ⟨1, false⟩
  | some (.ok (_audioUrl, episodeTitle, _showTitle)) =>
    match episodeTitle with
    | .str t =>
      let _audio_filename := sanitizeTitle t ++ ".mp3"
      match env.download with
      | .errNoFile => ⟨1, false⟩
      | .errPartial => ⟨1, true⟩
      | .ok audio_file =>
        match transcribe_audio env.whisperAvailable env.whisper audio_file
            a.language a.model with
        | .error _ => ⟨1, true⟩
        | .ok _text =>
          match env.save with
          | .error _ => ⟨1, true⟩
          | .ok _ => ⟨0, a.keep_audio⟩
    | _ => ⟨1, false⟩

/-! ## Attempt-log predicates and concrete run inputs -/

/-- No record of the remote engine appears in the log. -/
def noRemoteIn (log : List Attempt) : Bool :=
  log.all (fun r => !(r.strat == Strat.remoteEngine))

/-- Every remote-engine record in the log is preceded by a local-engine
record: scanning left to right, a remote record before any local record
refutes it, a local record settles it. -/
def localBeforeRemote : List Attempt → Bool
  | [] => true
  | r :: rest =>
    if r.strat = Strat.remoteEngine then false
    else if r.strat = Strat.localEngine then true
    else localBeforeRemote rest

/-- A caption API with no track in any language. -/
def capNoneApi : CaptionApi :=
  ⟨fun _ => none, none⟩

/-- A caption API offering only an English track. -/
def capEnApi : CaptionApi :=
  ⟨fun l => if l = "en" then some [⟨0, 2, "hello"⟩] else none, none⟩

/-- A whisper model that always produces the text `"TEXT"`. -/
def wOkOracle : WhisperOracle :=
  fun _ _ _ => .ok "TEXT"

/-- A whisper model that always raises. -/
def wErrOracle : WhisperOracle :=
  fun _ _ _ => .error "boom"

/-- A whisper model that reports the language argument it received
(`"AUTODETECT"` for `None`), making the forwarded language observable. -/
def wEchoOracle : WhisperOracle :=
  fun _ _ lang =>
    .ok (match lang with
         | some l => l
         | none => "AUTODETECT")

/-- Arguments of a plain YouTube-tool run on a bare video id. -/
def dlArgsPlain : DLArgs :=
  ⟨"dQw4w9WgXcQ", false, false, false, "en", "base"⟩

/-- Arguments of a YouTube-tool run pinned to the local engine. -/
def dlArgsPinned : DLArgs :=
  ⟨"dQw4w9WgXcQ", false, true, false, "en", "base"⟩

/-- Environment: no captions, whisper installed and succeeding, a
configured and reachable Whishper server, saving succeeds. -/
def dlEnvLocalOk : DLEnv :=
  ⟨true, capNoneApi, fun _ => "F", .ok "a.mp3", wOkOracle, .ok "REMOTE", .ok ()⟩

/-- Environment: no captions, whisper NOT installed, a configured and
reachable Whishper server, saving succeeds. -/
def dlEnvNoWhisper : DLEnv :=
  ⟨false, capNoneApi, fun _ => "F", .ok "a.mp3", wErrOracle, .ok "REMOTE", .ok ()⟩

/-- Podcast-tool arguments for an Acast episode, audio not retained. -/
def podArgsAcast : PodArgs :=
  ⟨"https://shows.acast.com/0a1b/2c3d", false, "auto", "base"⟩

/-- Podcast environment whose transcription step fails. -/
def podEnvTranscribeFail : PodEnv :=
  ⟨.success "x", .ok "p.mp3", true, wErrOracle, .ok ()⟩

/-- Podcast environment where every step succeeds. -/
def podEnvAllOk : PodEnv :=
  ⟨.success "x", .ok "p.mp3", true, wOkOracle, .ok ()⟩

/-- Acast episode page whose only JSON-LD block carries the media URL in
top-level `contentUrl` and `url` fields (no `associatedMedia`), with an
unrelated `.mp3` URL elsewhere in the page text. -/
def acastDirectFieldPage : String :=
  "<script type=\"application/ld+json\">\x7b\"@type\":\"PodcastEpisode\",\"contentUrl\":\"https://cdn.example/direct-audio\",\"url\":\"https://cdn.example/alt-audio\"\x7d</script> https://other.example/x.mp3"

/-- Acast episode page whose only JSON-LD block carries the media URL in
top-level `contentUrl` and `url` fields, and nothing else. -/
def acastDirectOnlyPage : String :=
  "<script type=\"application/ld+json\">\x7b\"@type\":\"PodcastEpisode\",\"contentUrl\":\"https://cdn.example/direct-audio\",\"url\":\"https://cdn.example/alt-audio\"\x7d</script>"

/-- Apple episode page whose only JSON-LD block holds the audio in its
top-level `url` field, with another `.mp3` URL elsewhere. -/
def appleUrlFieldPage : String :=
  "<script type=\"application/ld+json\">\x7b\"@type\":\"PodcastEpisode\",\"url\":\"https://h/x\"\x7d</script> https://other.example/x.mp3"

/-- Page with no structured data and two audio URLs: the first contains
the token `acast` in its path but its host is unrecognised, the second
is hosted on a recognised CDN domain. -/
def twoUrlPage : String :=
  "a https://evil.example/acast/x.mp3 b https://media.acast.com/y.mp3"

/-! ## Helper lemmas -/

/-- A successful `takeIdChars` yields exactly `n` characters, all in the
id class. -/
theorem takeIdChars_spec :
    ∀ (n : Nat) (cs g r : List Char), takeIdChars n cs = some (g, r) →
      g.length = n ∧ ∀ c ∈ g, idChar c = true := by
  intro n
  induction n with
  | zero =>
    intro cs g r h
    simp [takeIdChars] at h
    obtain ⟨h1, _h2⟩ := h
    subst h1
    simp
  | succ m ih =>
    intro cs g r h
    match cs with
    | [] => simp [takeIdChars] at h
    | c :: cs2 =>
      unfold takeIdChars at h
      by_cases hc : idChar c = true
      · rw [hc] at h
        simp only [if_true] at h
        cases h4 : takeIdChars m cs2 with
        | none => rw [h4] at h; simp at h
        | some pr =>
          obtain ⟨g2, r2⟩ := pr
          rw [h4] at h
          simp at h
          obtain ⟨h5, _h6⟩ := h
          subst h5
          obtain ⟨hl, hall⟩ := ih cs2 g2 r2 h4
          refine ⟨by simp [hl], ?_⟩
          intro x hx
          rcases List.mem_cons.mp hx with hx | hx
          · rw [hx]; exact hc
          · exact hall x hx
      · simp only [Bool.not_eq_true] at hc
        rw [hc] at h
        simp at h

/-- `takeIdChars` on a list of exactly `n` id-class characters consumes
everything. -/
theorem takeIdChars_all :
    ∀ (cs : List Char), (∀ c ∈ cs, idChar c = true) →
      takeIdChars cs.length cs = some (cs, []) := by
  intro cs
  induction cs with
  | nil => intro _; rfl
  | cons c cs2 ih =>
    intro hall
    unfold takeIdChars
    simp only [List.length_cons]
    rw [hall c (List.mem_cons_self c cs2)]
    simp [ih (fun x hx => hall x (List.mem_cons_of_mem c hx))]

/-- A group of eleven id-class characters passes the bare-id check. -/
theorem matchFullId_of_good (g : List Char) (hl : g.length = 11)
    (hall : ∀ c ∈ g, idChar c = true) : matchFullId g = true := by
  unfold matchFullId
  have h := takeIdChars_all g hall
  rw [hl] at h
  rw [h]
  rfl

/-- A successful `re.search` scan yields the result of the position
matcher at some position. -/
theorem scanSearch_spec (tryAt : List Char → Option (List Char)) :
    ∀ (cs g : List Char), scanSearch tryAt cs = some g →
      ∃ pos, tryAt pos = some g := by
  intro cs
  induction cs with
  | nil =>
    intro g h
    exact ⟨[], h⟩
  | cons c cs2 ih =>
    intro g h
    unfold scanSearch at h
    cases h2 : tryAt (c :: cs2) with
    | some g2 => rw [h2] at h; exact ⟨c :: cs2, by rw [h2, ← h]⟩
    | none => rw [h2] at h; exact ih g h

/-- The capture of `([0-9A-Za-z_-]{11})` projected out of a position
match is eleven id-class characters. -/
theorem mapFst_good (rest g : List Char)
    (h : (takeIdChars 11 rest).map Prod.fst = some g) :
    g.length = 11 ∧ ∀ c ∈ g, idChar c = true := by
  cases ht : takeIdChars 11 rest with
  | none => rw [ht] at h; simp at h
  | some pr =>
    obtain ⟨g2, r2⟩ := pr
    rw [ht] at h
    simp at h
    exact h ▸ takeIdChars_spec 11 rest g2 r2 ht

/-- The group captured by the `(?:v=|\/)` pattern is eleven id-class
characters. -/
theorem tryVSlash_good (pos g : List Char) (h : tryVSlash pos = some g) :
    g.length = 11 ∧ ∀ c ∈ g, idChar c = true := by
  unfold tryVSlash at h
  split at h
  · exact mapFst_good _ g h
  · exact mapFst_good _ g h
  · simp at h

/-- The group captured by the `embed/` pattern is eleven id-class
characters. -/
theorem tryEmbed_good (pos g : List Char) (h : tryEmbed pos = some g) :
    g.length = 11 ∧ ∀ c ∈ g, idChar c = true := by
  unfold tryEmbed at h
  cases hd : dropLit "embed/".toList pos with
  | none => rw [hd] at h; simp at h
  | some rest =>
    rw [hd] at h
    exact mapFst_good rest g h

/-- The group captured by the `watch?v=` pattern is eleven id-class
characters. -/
theorem tryWatch_good (pos g : List Char) (h : tryWatch pos = some g) :
    g.length = 11 ∧ ∀ c ∈ g, idChar c = true := by
  unfold tryWatch at h
  cases hd : dropLit "watch?v=".toList pos with
  | none => rw [hd] at h; simp at h
  | some rest =>
    rw [hd] at h
    exact mapFst_good rest g h

/-- The group captured by the anchored bare-id pattern is eleven
id-class characters. -/
theorem pat4_good (cs g : List Char) (h : pat4Anchored cs = some g) :
    g.length = 11 ∧ ∀ c ∈ g, idChar c = true := by
  unfold pat4Anchored at h
  split at h
  next g2 r2 heq =>
    split at h
    · have h2 : g2 = g := by injection h
      exact h2 ▸ takeIdChars_spec 11 cs g2 r2 heq
    · simp at h
  next heq => simp at h

/-- A string whose characters are a nonempty list is truthy. -/
theorem truthyStrMk (l : List Char) (h : l ≠ []) :
    truthy (Json.str (String.mk l)) = true := by
  have hs : String.mk l ≠ "" := by
    intro hh
    apply h
    have h2 := congrArg String.toList hh
    exact h2
  simp [truthy, hs]

/-- A successful last-wins lookup means some entry bears the key. -/
theorem jgetLast_any (es : List (String × Json)) (k : String) (v : Json)
    (h : jgetLast es k = some v) :
    (es.any fun kv => decide (kv.1 = k)) = true := by
  induction es with
  | nil => simp [jgetLast] at h
  | cons kv rest ih =>
    obtain ⟨k1, v1⟩ := kv
    unfold jgetLast at h
    cases hg : jgetLast rest k with
    | some r =>
      rw [hg] at h
      have hv : r = v := by injection h
      simp only [List.any_cons, Bool.or_eq_true]
      exact Or.inr (ih (hv ▸ hg))
    | none =>
      rw [hg] at h
      by_cases hk : k1 = k
      · simp [List.any_cons, hk]
      · rw [if_neg hk] at h; simp at h

/-- A present key makes `jsonHasKey` true. -/
theorem jsonHasKey_of_get (d : Json) (k : String) (v : Json)
    (h : d.get k = some v) : jsonHasKey d k = true := by
  match d with
  | .null => simp [Json.get] at h
  | .bool _ => simp [Json.get] at h
  | .num _ => simp [Json.get] at h
  | .str _ => simp [Json.get] at h
  | .arr _ => simp [Json.get] at h
  | .obj es =>
    simp only [jsonHasKey]
    simp only [Json.get] at h
    exact jgetLast_any es k v h

/-- With a caption source that has no track in any language, every
per-language loop comes up empty. -/
theorem tryLanguages_none (api : CaptionApi)
    (h : ∀ l, api.byLang l = none) :
    ∀ ls, tryLanguages api ls = none := by
  intro ls
  induction ls with
  | nil => rfl
  | cons l rest ih => unfold tryLanguages; rw [h l, ih]

/-- With `--audio-only`, the caption phase is skipped and records no
attempt. -/
theorem captionPhase_audioOnly (a : DLArgs) (env : DLEnv)
    (hao : a.audio_only = true) : captionPhase a env = (none, []) := by
  unfold captionPhase
  rw [hao]
  simp

/-- With a caption source empty in every language and without a default
track, `get_transcript` raises. -/
theorem get_transcript_allFail (api : CaptionApi) (ls : List String)
    (hb : ∀ l, api.byLang l = none) (hd : api.defaultTrack = none) :
    get_transcript api (some ls) =
      .error "Error fetching transcript: No transcripts available for this video" := by
  simp [get_transcript, tryLanguages_none api hb ls, hd]

/-- With captions unavailable in every language and no default track,
the caption phase fails and records exactly one failed attempt. -/
theorem captionPhase_failed (a : DLArgs) (env : DLEnv)
    (hao : a.audio_only = false)
    (hb : ∀ l, env.captions.byLang l = none)
    (hd : env.captions.defaultTrack = none) :
    captionPhase a env = (none, [⟨.nativeCaption, false⟩]) := by
  simp [captionPhase, hao,
    get_transcript_allFail env.captions (parsedLanguages a.languages) hb hd]

/-- With a successful download and a succeeding local engine, the engine
phase records exactly one successful local attempt. -/
theorem enginePhase_localOk (a : DLArgs) (env : DLEnv) (p t : String)
    (hdl : env.download = .ok p)
    (hcond : (a.use_local_whisper || env.whisperAvailable) = true)
    (hlw : transcribe_with_local_whisper env.whisperAvailable env.whisper p
      (primaryLanguage a.languages) a.whisper_model = .ok t) :
    enginePhase a env = (.ok t, [⟨.localEngine, true⟩], true) := by
  simp [enginePhase, hdl, hcond, hlw]

/-- With the engine pinned to local and the local engine failing, the
engine phase propagates that error and records exactly one failed local
attempt. -/
theorem enginePhase_pinnedFail (a : DLArgs) (env : DLEnv) (p e : String)
    (hdl : env.download = .ok p)
    (hpin : a.use_local_whisper = true)
    (hlw : transcribe_with_local_whisper env.whisperAvailable env.whisper p
      (primaryLanguage a.languages) a.whisper_model = .error e) :
    enginePhase a env = (.error e, [⟨.localEngine, false⟩], true) := by
  simp [enginePhase, hdl, hpin, hlw]

/-- The caption phase records only native-caption attempts. -/
theorem captionPhase_log (a : DLArgs) (env : DLEnv) :
    (captionPhase a env).2 = [] ∨
      ∃ b, (captionPhase a env).2 = [⟨.nativeCaption, b⟩] := by
  unfold captionPhase
  split
  · exact Or.inl rfl
  · split
    · exact Or.inr ⟨true, rfl⟩
    · exact Or.inr ⟨false, rfl⟩

/-- A native-caption record at the head does not affect the
local-before-remote scan. -/
theorem localBeforeRemote_native (b : Bool) (l : List Attempt) :
    localBeforeRemote (⟨.nativeCaption, b⟩ :: l) = localBeforeRemote l := by
  simp [localBeforeRemote]

/-- Whenever the local engine is requested or available, the engine
phase never records a remote attempt before a local one. -/
theorem enginePhase_localBefore (a : DLArgs) (env : DLEnv)
    (hcond : (a.use_local_whisper || env.whisperAvailable) = true) :
    localBeforeRemote (enginePhase a env).2.1 = true := by
  unfold enginePhase
  cases hdl : env.download with
  | error e => simp [localBeforeRemote]
  | ok p =>
    rw [hcond]
    simp only [if_true]
    cases hlw : transcribe_with_local_whisper env.whisperAvailable env.whisper p
        (primaryLanguage a.languages) a.whisper_model with
    | ok t => simp [localBeforeRemote]
    | error we =>
      by_cases hpin : a.use_local_whisper = true
      · rw [hpin]
        simp [localBeforeRemote]
      · simp only [Bool.not_eq_true] at hpin
        rw [hpin]
        cases env.whishper <;> simp [localBeforeRemote]

/-! ## Claim C10 -/

/-- C10: an input that is already an 11-character video id (all
characters in `[a-zA-Z0-9_-]`) is returned unchanged by
`extract_video_id`, and extraction is idempotent: whenever it succeeds,
re-extracting the result returns it unchanged. -/
theorem c10_extract_id_idempotent :
    (∀ u : String, u.toList.length = 11 → (∀ c ∈ u.toList, idChar c = true) →
      extract_video_id u = .ok u)
    ∧ (∀ u r : String, extract_video_id u = .ok r → extract_video_id r = .ok r) := by
  have hok : ∀ g : List Char, g.length = 11 → (∀ c ∈ g, idChar c = true) →
      extract_video_id (String.mk g) = .ok (String.mk g) := by
    intro g hl hall
    have hm : matchFullId g = true := matchFullId_of_good g hl hall
    simp [extract_video_id, hm]
  constructor
  · intro u hl hall
    have hm : matchFullId u.data = true := matchFullId_of_good u.toList hl hall
    simp [extract_video_id, hm]
  · intro u r h
    simp only [extract_video_id] at h
    by_cases h1 : matchFullId u.toList = true
    · rw [if_pos h1] at h
      have h2 : u = r := by injection h
      subst h2
      have h1d : matchFullId u.data = true := h1
      simp [extract_video_id, h1d]
    · rw [if_neg h1] at h
      cases hs1 : scanSearch tryVSlash u.toList with
      | some g =>
        rw [hs1] at h
        have h2 : String.mk g = r := by injection h
        obtain ⟨pos, hp⟩ := scanSearch_spec tryVSlash u.toList g hs1
        obtain ⟨hl, hall⟩ := tryVSlash_good pos g hp
        exact h2 ▸ hok g hl hall
      | none =>
        rw [hs1] at h
        cases hs2 : scanSearch tryEmbed u.toList with
        | some g =>
          rw [hs2] at h
          have h2 : String.mk g = r := by injection h
          obtain ⟨pos, hp⟩ := scanSearch_spec tryEmbed u.toList g hs2
          obtain ⟨hl, hall⟩ := tryEmbed_good pos g hp
          exact h2 ▸ hok g hl hall
        | none =>
          rw [hs2] at h
          cases hs3 : scanSearch tryWatch u.toList with
          | some g =>
            rw [hs3] at h
            have h2 : String.mk g = r := by injection h
            obtain ⟨pos, hp⟩ := scanSearch_spec tryWatch u.toList g hs3
            obtain ⟨hl, hall⟩ := tryWatch_good pos g hp
            exact h2 ▸ hok g hl hall
          | none =>
            rw [hs3] at h
            cases hs4 : pat4Anchored u.toList with
            | some g =>
              rw [hs4] at h
              have h2 : String.mk g = r := by injection h
              obtain ⟨hl, hall⟩ := pat4_good u.toList g hs4
              exact h2 ▸ hok g hl hall
            | none =>
              rw [hs4] at h
              simp at h

/-- Witness for C10 at a concrete id and a concrete URL. -/
theorem c10_extract_id_idempotent_witness :
    extract_video_id "dQw4w9WgXcQ" = .ok "dQw4w9WgXcQ" ∧
    extract_video_id "dQw4w9WgXcQ" = .ok "dQw4w9WgXcQ" :=
  ⟨c10_extract_id_idempotent.1 "dQw4w9WgXcQ" (by decide) (by decide),
   c10_extract_id_idempotent.2 "https://youtu.be/dQw4w9WgXcQ" "dQw4w9WgXcQ" (by rfl)⟩

/-! ## Claim C6 -/

/-- C6: caption languages are attempted in list order and the first
language with a track wins, returned with its own tag; if every
preferred language fails, one final attempt without a language
constraint is made (tag `"unknown"`), and only if that also fails is the
strategy declared failed. -/
theorem c6_language_fallback :
    (∀ (api : CaptionApi) (pre : List String) (lang : String) (post : List String)
        (d : TranscriptData),
       (∀ l ∈ pre, api.byLang l = none) → api.byLang lang = some d →
       get_transcript api (some (pre ++ lang :: post)) = .ok (d, lang))
    ∧ (∀ (api : CaptionApi) (langs : List String) (d : TranscriptData),
       (∀ l ∈ langs, api.byLang l = none) → api.defaultTrack = some d →
       get_transcript api (some langs) = .ok (d, "unknown"))
    ∧ (∀ (api : CaptionApi) (langs : List String),
       (∀ l ∈ langs, api.byLang l = none) → api.defaultTrack = none →
       get_transcript api (some langs) =
         .error "Error fetching transcript: No transcripts available for this video") := by
  have htry : ∀ (api : CaptionApi) (ls : List String), (∀ l ∈ ls, api.byLang l = none) →
      tryLanguages api ls = none := by
    intro api ls h
    induction ls with
    | nil => rfl
    | cons l rest ih =>
      unfold tryLanguages
      rw [h l (List.mem_cons_self l rest), ih (fun x hx => h x (List.mem_cons_of_mem l hx))]
  refine ⟨?_, ?_, ?_⟩
  · intro api pre lang post d hpre hlang
    have key : ∀ pre2, (∀ l ∈ pre2, api.byLang l = none) →
        tryLanguages api (pre2 ++ lang :: post) = some (d, lang) := by
      intro pre2
      induction pre2 with
      | nil =>
        intro _
        simp only [List.nil_append]
        unfold tryLanguages
        rw [hlang]
      | cons x xs ih =>
        intro hp
        simp only [List.cons_append]
        unfold tryLanguages
        rw [hp x (List.mem_cons_self x xs), ih (fun y hy => hp y (List.mem_cons_of_mem x hy))]
    simp [get_transcript, key pre hpre]
  · intro api langs d hall hd
    simp [get_transcript, htry api langs hall, hd]
  · intro api langs hall hd
    simp [get_transcript, htry api langs hall, hd]

/-- Witness for C6: preferences `["fr","en"]` against an English-only
source return the English track tagged `"en"`. -/
theorem c6_language_fallback_witness :
    get_transcript capEnApi (some ["fr", "en"]) = .ok ([⟨0, 2, "hello"⟩], "en") :=
  c6_language_fallback.1 capEnApi ["fr"] "en" [] [⟨0, 2, "hello"⟩]
    (by intro l hl; simp at hl; subst hl; rfl) rfl

/-! ## Claim C1 -/

/-- C1: on a run with a valid video reference where the native caption
fails and the local engine is available and succeeds, the attempt log is
exactly `[NativeCaption:Failed, LocalEngine:Success]` with no remote
record; and whenever the local engine is requested or available, no
remote attempt ever precedes a local attempt. -/
theorem c1_fallback_chain_order :
    (∀ (a : DLArgs) (env : DLEnv) (vid p t : String),
       extract_video_id a.url = .ok vid →
       a.audio_only = false →
       (∀ l, env.captions.byLang l = none) →
       env.captions.defaultTrack = none →
       env.whisperAvailable = true →
       env.download = .ok p →
       transcribe_with_local_whisper env.whisperAvailable env.whisper p
         (primaryLanguage a.languages) a.whisper_model = .ok t →
       (mainDownloader a env).log = [⟨.nativeCaption, false⟩, ⟨.localEngine, true⟩]
         ∧ noRemoteIn (mainDownloader a env).log = true)
    ∧ (∀ (a : DLArgs) (env : DLEnv),
       (a.use_local_whisper = true ∨ env.whisperAvailable = true) →
       localBeforeRemote (mainDownloader a env).log = true) := by
  constructor
  · intro a env vid p t hvid hao hb hd hav hdl hlw
    have hcp := captionPhase_failed a env hao hb hd
    have hcond : (a.use_local_whisper || env.whisperAvailable) = true := by
      rw [hav]; simp
    have hep := enginePhase_localOk a env p t hdl hcond hlw
    have hlog : (mainDownloader a env).log =
        [⟨.nativeCaption, false⟩, ⟨.localEngine, true⟩] := by
      unfold mainDownloader
      rw [hvid, hcp, hep]
      cases env.save <;> rfl
    refine ⟨hlog, ?_⟩
    rw [hlog]
    rfl
  · intro a env hcond1
    have hcond : (a.use_local_whisper || env.whisperAvailable) = true := by
      rcases hcond1 with h | h <;> simp [h]
    have hlbr0 : ∀ l, localBeforeRemote ((captionPhase a env).2 ++ l) =
        localBeforeRemote l := by
      intro l
      rcases captionPhase_log a env with h | ⟨b, h⟩ <;> rw [h]
      · rfl
      · exact localBeforeRemote_native b l
    have hcap0 : localBeforeRemote (captionPhase a env).2 = true := by
      rcases captionPhase_log a env with h | ⟨b, h⟩ <;> rw [h] <;> rfl
    unfold mainDownloader
    cases hvid : extract_video_id a.url with
    | error e => simp [localBeforeRemote]
    | ok vid =>
      cases hcp : captionPhase a env with
      | mk t0 log0 =>
        cases t0 with
        | some txt =>
          cases hs : env.save with
          | error e =>
            have := hcap0
            rw [hcp] at this
            simpa using this
          | ok u =>
            have := hcap0
            rw [hcp] at this
            simpa using this
        | none =>
          have hep := enginePhase_localBefore a env hcond
          cases hepE : enginePhase a env with
          | mk res rest =>
            cases rest with
            | mk log1 dl =>
              rw [hepE] at hep
              have hlb : localBeforeRemote (log0 ++ log1) = true := by
                have h2 := hlbr0 log1
                rw [hcp] at h2
                simpa [h2] using hep
              cases res with
              | error e => simpa using hlb
              | ok txt =>
                cases hs : env.save with
                | error e => simpa using hlb
                | ok u => simpa using hlb

/-- Witness for C1 at a concrete run. -/
theorem c1_fallback_chain_order_witness :
    (mainDownloader dlArgsPlain dlEnvLocalOk).log =
      [⟨.nativeCaption, false⟩, ⟨.localEngine, true⟩] ∧
    noRemoteIn (mainDownloader dlArgsPlain dlEnvLocalOk).log = true :=
  c1_fallback_chain_order.1 dlArgsPlain dlEnvLocalOk "dQw4w9WgXcQ" "a.mp3" "TEXT"
    rfl rfl (fun _ => rfl) rfl rfl rfl rfl

/-! ## Claim C2 -/

/-- C2: with the engine pinned to local (`--use-local-whisper`) and the
local engine failing — a missing whisper dependency included — a run
that reaches the engine phase terminates with exit code 1 carrying
exactly the local engine's error, and the remote engine is never
attempted even though a Whishper endpoint is configured in the
environment. -/
theorem c2_pinned_local_error :
    ∀ (a : DLArgs) (env : DLEnv) (vid p e : String),
      extract_video_id a.url = .ok vid →
      a.use_local_whisper = true →
      (a.audio_only = true ∨
        ((∀ l, env.captions.byLang l = none) ∧ env.captions.defaultTrack = none)) →
      env.download = .ok p →
      transcribe_with_local_whisper env.whisperAvailable env.whisper p
        (primaryLanguage a.languages) a.whisper_model = .error e →
      (mainDownloader a env).exitCode = 1 ∧
      (mainDownloader a env).finalError = some e ∧
      noRemoteIn (mainDownloader a env).log = true := by
  intro a env vid p e hvid hpin hcap hdl hlw
  have hep := enginePhase_pinnedFail a env p e hdl hpin hlw
  have hcp : captionPhase a env = (none, []) ∨
      captionPhase a env = (none, [⟨.nativeCaption, false⟩]) := by
    rcases hcap with h | ⟨hb, hd⟩
    · exact Or.inl (captionPhase_audioOnly a env h)
    · cases hao : a.audio_only with
      | false => exact Or.inr (captionPhase_failed a env hao hb hd)
      | true => exact Or.inl (captionPhase_audioOnly a env hao)
  rcases hcp with hcp | hcp <;>
  · unfold mainDownloader
    rw [hvid, hcp, hep]
    exact ⟨rfl, rfl, rfl⟩

/-- Witness for C2: pinned local engine with whisper not installed; the
run ends with the dependency error and no remote attempt. -/
theorem c2_pinned_local_error_witness :
    (mainDownloader dlArgsPinned dlEnvNoWhisper).exitCode = 1 ∧
    (mainDownloader dlArgsPinned dlEnvNoWhisper).finalError =
      some "OpenAI Whisper is not installed. Install with: uv add openai-whisper" ∧
    noRemoteIn (mainDownloader dlArgsPinned dlEnvNoWhisper).log = true :=
  c2_pinned_local_error dlArgsPinned dlEnvNoWhisper "dQw4w9WgXcQ" "a.mp3"
    "OpenAI Whisper is not installed. Install with: uv add openai-whisper"
    rfl rfl (Or.inr ⟨fun _ => rfl, rfl⟩) rfl rfl

/-! ## Claim C4 -/

/-- C4 (amended): audio cleanup honours the retention flag only on the
paths that implement it — on any successful run of either tool no audio
file remains unless `--keep-audio`, and in the YouTube tool the same
holds on every run whose transcript saving succeeds (its engine-failure
handler deletes the file).  A podcast-tool failure after the download
(transcription or save failure) is NOT covered: the file stays on disk
(see the counterexample). -/
theorem c4_cleanup_on_success :
    (∀ (a : PodArgs) (env : PodEnv),
       a.keep_audio = false → (mainPodcast a env).exitCode = 0 →
       (mainPodcast a env).audioOnDisk = false)
    ∧ (∀ (a : DLArgs) (env : DLEnv),
       a.keep_audio = false → env.save = .ok () →
       (mainDownloader a env).audioOnDisk = false) := by
  constructor
  · intro a env hkeep h0
    have key : (mainPodcast a env).exitCode = 0 →
        (mainPodcast a env).audioOnDisk = a.keep_audio := by
      simp only [mainPodcast]
      repeat' split
      all_goals intro h
      all_goals first | rfl | simp at h
    rw [key h0, hkeep]
  · intro a env hkeep hsave
    simp only [mainDownloader, hsave]
    repeat' split
    all_goals first | rfl | simp [hkeep]

/-- Witness for C4 (amended): successful runs of both tools leave no
audio file behind. -/
theorem c4_cleanup_on_success_witness :
    (mainPodcast podArgsAcast podEnvAllOk).audioOnDisk = false ∧
    (mainDownloader dlArgsPlain dlEnvLocalOk).audioOnDisk = false :=
  ⟨c4_cleanup_on_success.1 podArgsAcast podEnvAllOk rfl rfl,
   c4_cleanup_on_success.2 dlArgsPlain dlEnvLocalOk rfl rfl⟩

/-- Counterexample to C4 as stated: a podcast run without `--keep-audio`
whose transcription step fails exits with the downloaded audio file
still on disk. -/
theorem c4_counterexample :
    podArgsAcast.keep_audio = false ∧
    (mainPodcast podArgsAcast podEnvTranscribeFail).exitCode = 1 ∧
    (mainPodcast podArgsAcast podEnvTranscribeFail).audioOnDisk = true :=
  ⟨rfl, rfl, rfl⟩

/-! ## Claim C3 -/

/-- C3 (amended): for the Acast locator a page-fetch failure is always
fatal — the fetch error is raised even when the page URL matches the
identifier pattern — and the deterministically constructed
`play.acast.com` URL is returned only when the fetch succeeds but both
the structured-data scan and the pattern scan yield nothing. -/
theorem c3_fetch_failure_fatal :
    (∀ url : String,
       extract_acast_audio_url url .failure = .error "Failed to fetch Acast page")
    ∧ (∀ (url page : String) (sid eid : List Char),
       acastUrlIds url.toList = some (sid, eid) →
       jsonLdFindAll page.toList = [] →
       findAudioUrls page.toList = [] →
       extract_acast_audio_url url (.success page) =
         .ok (Json.str (String.mk ("https://play.acast.com/s/".toList ++ sid ++
               '/' :: eid ++ ".mp3".toList)),
              Json.str "Unknown Episode", Json.str "Unknown Show")) := by
  constructor
  · intro url
    rfl
  · intro url page sid eid hids hblocks hurls
    simp only [extract_acast_audio_url]
    rw [hids, hblocks, hurls]
    rfl

/-- Witness for C3 (amended): a matching Acast URL with a successfully
fetched but empty page yields the constructed media URL. -/
theorem c3_fetch_failure_fatal_witness :
    extract_acast_audio_url "https://shows.acast.com/0a1b/2c3d" (.success "hello") =
      .ok (Json.str "https://play.acast.com/s/0a1b/2c3d.mp3",
           Json.str "Unknown Episode", Json.str "Unknown Show") := by
  have h := c3_fetch_failure_fatal.2 "https://shows.acast.com/0a1b/2c3d" "hello"
    "0a1b".toList "2c3d".toList rfl rfl rfl
  exact h

/-- Counterexample to C3 as stated: the episode URL matches the
identifier pattern, yet a fetch failure makes the locator raise instead
of returning the constructed media URL. -/
theorem c3_counterexample :
    acastUrlIds "https://shows.acast.com/0a1b/2c3d".toList =
      some ("0a1b".toList, "2c3d".toList) ∧
    extract_acast_audio_url "https://shows.acast.com/0a1b/2c3d" .failure =
      .error "Failed to fetch Acast page" :=
  ⟨rfl, rfl⟩

/-! ## Claim C5 -/

/-- C5 (amended): whenever the JSON-LD loop of an extractor yields a
truthy audio URL, the extractor returns exactly that URL and the
titles from the loop — the raw-text pattern scan and the constructed
URL are never consulted; the pattern scan runs only when the
structured-data scan yields no truthy URL.  (As stated the claim fails:
the Acast loop ignores a top-level content-URL field — see the
counterexample.) -/
theorem c5_structured_data_wins :
    (∀ (url page : String) (v ep sh : Json),
       appleLoop (jsonLdFindAll page.toList) none (Json.str "Unknown Episode")
         (Json.str "Unknown Show") = (some v, ep, sh) →
       truthy v = true →
       extract_apple_podcasts_audio_url url (.success page) = .ok (v, ep, sh))
    ∧ (∀ (url page : String) (v ep sh : Json),
       acastLoop (jsonLdFindAll page.toList) none (Json.str "Unknown Episode")
         (Json.str "Unknown Show") = (some v, ep, sh) →
       truthy v = true →
       extract_acast_audio_url url (.success page) = .ok (v, ep, sh)) := by
  constructor
  · intro url page v ep sh hloop hv
    simp only [extract_apple_podcasts_audio_url]
    rw [hloop]
    simp [truthyOpt, hv]
  · intro url page v ep sh hloop hv
    simp only [extract_acast_audio_url]
    rw [hloop]
    simp [truthyOpt, hv]

/-- Witness for C5 (amended): an Apple page whose episode block carries
the audio in its `url` field wins over an unrelated `.mp3` URL in the
page text. -/
theorem c5_structured_data_wins_witness :
    extract_apple_podcasts_audio_url "u" (.success appleUrlFieldPage) =
      .ok (Json.str "https://h/x", Json.str "Unknown Episode",
           Json.str "Unknown Show") :=
  c5_structured_data_wins.1 "u" appleUrlFieldPage (Json.str "https://h/x")
    (Json.str "Unknown Episode") (Json.str "Unknown Show") rfl rfl

set_option maxRecDepth 8000 in
/-- Counterexample to C5 as stated: an Acast page whose well-formed
episode block carries a direct content-URL field (and a top-level `url`
field), yet the locator returns an unrelated audio-looking URL found by
the raw pattern scan. -/
theorem c5_counterexample :
    extract_acast_audio_url "u" (.success acastDirectFieldPage) =
      .ok (Json.str "https://other.example/x.mp3", Json.str "Unknown Episode",
           Json.str "Unknown Show") ∧
    (parseJsonChars ((jsonLdFindAll acastDirectFieldPage.toList).headD [])).map
        (fun d => d.get "@type") =
      some (some (Json.str "PodcastEpisode")) ∧
    (parseJsonChars ((jsonLdFindAll acastDirectFieldPage.toList).headD [])).map
        (fun d => d.get "contentUrl") =
      some (some (Json.str "https://cdn.example/direct-audio")) ∧
    (parseJsonChars ((jsonLdFindAll acastDirectFieldPage.toList).headD [])).map
        (fun d => d.get "url") =
      some (some (Json.str "https://cdn.example/alt-audio")) :=
  ⟨rfl, rfl, rfl, rfl⟩

/-! ## Claim C7 -/

/-- C7 (amended): a block that fails to parse is skipped by both loops;
within an episode block the Apple extractor takes the top-level `url`
field first when truthy, then the associated-media `contentUrl`, then
the associated-media `url`; the Acast extractor reads only the
associated-media `contentUrl` and ignores every top-level field.  (As
stated the claim fails: neither extractor reads a top-level content-URL
field — see the counterexample.) -/
theorem c7_block_field_priority :
    (∀ (b : List Char) (rest : List (List Char)) (a : Option Json) (ep sh : Json),
       parseJsonChars b = none → appleLoop (b :: rest) a ep sh = appleLoop rest a ep sh)
    ∧ (∀ (b : List Char) (rest : List (List Char)) (a : Option Json) (ep sh : Json),
       parseJsonChars b = none → acastLoop (b :: rest) a ep sh = acastLoop rest a ep sh)
    ∧ (∀ (d : Json) (a : Option Json),
       truthyOpt (d.get "url") = true → appleAudioFrom d a = d.get "url")
    ∧ (∀ (d : Json) (a : Option Json) (m : Json),
       truthyOpt (d.get "url") = false → truthyOpt a = false →
       d.get "associatedMedia" = some m → isObjJson m = true →
       truthyOpt (m.get "contentUrl") = true →
       appleAudioFrom d a = m.get "contentUrl")
    ∧ (∀ (d : Json) (a : Option Json) (m : Json),
       truthyOpt (d.get "url") = false → truthyOpt a = false →
       d.get "associatedMedia" = some m → isObjJson m = true →
       truthyOpt (m.get "contentUrl") = false →
       appleAudioFrom d a = m.get "url")
    ∧ (∀ (d : Json) (a : Option Json) (m : Json),
       d.get "associatedMedia" = some m → isObjJson m = true →
       acastAudioFrom d a = m.get "contentUrl")
    ∧ (∀ (d : Json) (a : Option Json),
       jsonHasKey d "associatedMedia" = false → acastAudioFrom d a = a) := by
  refine ⟨?_, ?_, ?_, ?_, ?_, ?_, ?_⟩
  · intro b rest a ep sh hp
    simp [appleLoop, hp]
  · intro b rest a ep sh hp
    simp [acastLoop, hp]
  · intro d a h
    cases hg : d.get "url" with
    | none => rw [hg] at h; simp [truthyOpt] at h
    | some v =>
      have hk := jsonHasKey_of_get d "url" v hg
      rw [hg] at h
      simp only [truthyOpt] at h
      simp [appleAudioFrom, hk, hg, truthyOpt, h]
  · intro d a m hu ha hm hobj hc
    have hk := jsonHasKey_of_get d "associatedMedia" m hm
    have ha1 : truthyOpt (if jsonHasKey d "url" = true then d.get "url" else a) = false := by
      by_cases hku : jsonHasKey d "url" = true
      · simp [hku, hu]
      · simp only [Bool.not_eq_true] at hku
        simp [hku, ha]
    simp [appleAudioFrom, ha1, hk, hm, hobj, pyOr, hc]
  · intro d a m hu ha hm hobj hc
    have hk := jsonHasKey_of_get d "associatedMedia" m hm
    have ha1 : truthyOpt (if jsonHasKey d "url" = true then d.get "url" else a) = false := by
      by_cases hku : jsonHasKey d "url" = true
      · simp [hku, hu]
      · simp only [Bool.not_eq_true] at hku
        simp [hku, ha]
    simp [appleAudioFrom, ha1, hk, hm, hobj, pyOr, hc]
  · intro d a m hm hobj
    have hk := jsonHasKey_of_get d "associatedMedia" m hm
    simp [acastAudioFrom, hk, hm, hobj]
  · intro d a h
    simp [acastAudioFrom, h]

/-- Witness for C7 (amended): with both a truthy top-level `url` and an
associated-media `contentUrl` present, the Apple extraction takes the
top-level `url`. -/
theorem c7_block_field_priority_witness :
    appleAudioFrom
      (Json.obj [("url", Json.str "https://h/top"),
                 ("associatedMedia", Json.obj [("contentUrl", Json.str "https://h/m")])])
      none =
    (Json.obj [("url", Json.str "https://h/top"),
               ("associatedMedia", Json.obj [("contentUrl", Json.str "https://h/m")])]).get
      "url" :=
  c7_block_field_priority.2.2.1
    (Json.obj [("url", Json.str "https://h/top"),
               ("associatedMedia", Json.obj [("contentUrl", Json.str "https://h/m")])])
    none rfl

set_option maxRecDepth 8000 in
/-- Counterexample to C7 as stated: an Acast page whose single episode
block holds both a direct content-URL field and a generic `url` field
yields no audio URL at all — the stated priority order would have
extracted the content-URL. -/
theorem c7_counterexample :
    extract_acast_audio_url "u" (.success acastDirectOnlyPage) =
      .error "Could not extract audio URL from Acast page" ∧
    (parseJsonChars ((jsonLdFindAll acastDirectOnlyPage.toList).headD [])).map
        (fun d => d.get "contentUrl") =
      some (some (Json.str "https://cdn.example/direct-audio")) :=
  ⟨rfl, rfl⟩

/-! ## Claim C8 -/

/-- C8 (amended): among the pattern-scan matches the extractors prefer
the FIRST match whose lower-cased full text contains one of the fixed
tokens — a substring test on the whole URL, not on its host — and fall
back to the first match in document order when no match contains a
token.  (As stated the claim fails: a URL with a token in its path
beats a URL whose host is on the list — see the counterexample.) -/
theorem c8_cdn_preference :
    (∀ (tokens pre : List (List Char)) (u : List Char) (post : List (List Char)),
       (∀ w ∈ pre, tokens.any (fun t => strContains (lowerChars w) t) = false) →
       tokens.any (fun t => strContains (lowerChars u) t) = true →
       selectFromMatches tokens (pre ++ u :: post) = some u)
    ∧ (∀ (tokens ms : List (List Char)),
       (∀ w ∈ ms, tokens.any (fun t => strContains (lowerChars w) t) = false) →
       selectFromMatches tokens ms = ms.head?) := by
  constructor
  · intro tokens pre u post hpre hu
    have key : ∀ pre2 : List (List Char),
        (∀ w ∈ pre2, tokens.any (fun t => strContains (lowerChars w) t) = false) →
        List.find? (fun w => tokens.any (fun t => strContains (lowerChars w) t))
          (pre2 ++ u :: post) = some u := by
      intro pre2
      induction pre2 with
      | nil =>
        intro _
        simp only [List.nil_append]
        exact List.find?_cons_of_pos _ hu
      | cons x xs ih =>
        intro hp
        simp only [List.cons_append]
        rw [List.find?_cons_of_neg]
        · exact ih (fun y hy => hp y (List.mem_cons_of_mem x hy))
        · simp [hp x (List.mem_cons_self x xs)]
    simp [selectFromMatches, key pre hpre]
  · intro tokens ms hms
    have hfind : List.find? (fun w => tokens.any (fun t => strContains (lowerChars w) t))
        ms = none := by
      rw [List.find?_eq_none]
      intro x hx
      simp [hms x hx]
    cases ms with
    | nil => rfl
    | cons m ms2 => simp [selectFromMatches, hfind]

/-- Witness for C8 (amended): a `libsyn`-hosted URL is preferred over an
earlier token-free match. -/
theorem c8_cdn_preference_witness :
    selectFromMatches appleHostTokens
      ["https://zzz.example/a.mp3".toList, "https://cdn.libsyn.com/b.mp3".toList] =
      some "https://cdn.libsyn.com/b.mp3".toList :=
  c8_cdn_preference.1 appleHostTokens ["https://zzz.example/a.mp3".toList]
    "https://cdn.libsyn.com/b.mp3".toList []
    (by intro w hw; simp at hw; subst hw; decide) (by decide)

/-- Counterexample to C8 as stated: with one URL whose host is on the
allow-list and an earlier URL that merely contains a token in its path,
the extractor returns the latter, whose host is NOT on the list. -/
theorem c8_counterexample :
    extract_apple_podcasts_audio_url "u" (.success twoUrlPage) =
      .ok (Json.str "https://evil.example/acast/x.mp3", Json.str "Unknown Episode",
           Json.str "Unknown Show") ∧
    findAudioUrls twoUrlPage.toList =
      ["https://evil.example/acast/x.mp3".toList,
       "https://media.acast.com/y.mp3".toList] ∧
    hostOnAllowList appleHostTokens "https://evil.example/acast/x.mp3".toList = false ∧
    hostOnAllowList appleHostTokens "https://media.acast.com/y.mp3".toList = true :=
  ⟨rfl, rfl, rfl, rfl⟩

/-! ## Claim C9 -/

/-- C9 (amended): the podcast tool's engine treats `"auto"` as
engine-decides and forwards every other code (including `"en"`); the
YouTube tool's local engine instead treats `"en"` as engine-decides and
forwards every other code verbatim — the literal string `"auto"`
included.  Both engines otherwise wrap the model identically.  (As
stated the claim fails for the YouTube tool's engine — see the
counterexample.) -/
theorem c9_language_hint_mapping :
    (∀ l : String, l ≠ "auto" → podcastWhisperLangArg l = some l)
    ∧ podcastWhisperLangArg "auto" = none
    ∧ (∀ l : String, l ≠ "en" → localWhisperLangArg l = some l)
    ∧ localWhisperLangArg "en" = none
    ∧ (∀ (w : WhisperOracle) (p l ms : String),
        transcribe_audio true w p l ms =
          match w ms p (podcastWhisperLangArg l) with
          | .ok t => .ok t
          | .error e => .error ("Transcription failed: " ++ e))
    ∧ (∀ (w : WhisperOracle) (p l ms : String),
        transcribe_with_local_whisper true w p l ms =
          match w ms p (localWhisperLangArg l) with
          | .ok t => .ok t
          | .error e => .error ("Local Whisper transcription failed: " ++ e)) := by
  refine ⟨?_, rfl, ?_, rfl, ?_, ?_⟩
  · intro l h
    simp [podcastWhisperLangArg, h]
  · intro l h
    simp [localWhisperLangArg, h]
  · intro w p l ms
    rfl
  · intro w p l ms
    rfl

/-- Witness for C9 (amended) at the concrete hint `"fr"`. -/
theorem c9_language_hint_mapping_witness :
    podcastWhisperLangArg "fr" = some "fr" ∧ localWhisperLangArg "fr" = some "fr" :=
  ⟨c9_language_hint_mapping.1 "fr" (by decide),
   c9_language_hint_mapping.2.2.1 "fr" (by decide)⟩

/-- Counterexample to C9 as stated: the YouTube tool's local engine maps
the specific code `"en"` to auto-detect instead of forwarding it, and
forwards the literal string `"auto"` to the model instead of letting the
engine decide. -/
theorem c9_counterexample :
    transcribe_with_local_whisper true wEchoOracle "a.mp3" "en" "base" =
      .ok "AUTODETECT" ∧
    transcribe_with_local_whisper true wEchoOracle "a.mp3" "auto" "base" =
      .ok "auto" :=
  ⟨rfl, rfl⟩
